import Mathlib

/-!
Verification development for the docker-proxy repository (vansour/docker-proxy).

The definitions below are shallow embeddings of the Rust source:
* `src/router.rs`  — the V2 path router (`parse_v2_path`),
* `src/range.rs`   — the byte-range engine (`parse_range_header`, `create_range_headers`),
* `src/proxy.rs`   — registry resolution (`split_registry_and_name`, `normalize_image_name`),
  the Bearer-auth fetch primitive (`fetch_with_auth`), the blob fetch (`get_blob`)
  and the health check (`check_registry_health`).

Machine integers (u64) are modelled as `Nat` with explicit wrap-around (`% 2 ^ 64`)
where the source can overflow.  Rust string operations are modelled on the
character list `String.data` (Rust `str::split`, `trim`, `contains` etc. are
character-based), so that every definition evaluates by kernel reduction.
Network I/O is modelled by an explicit oracle (`World`) mapping each outgoing
request to the upstream answer; the requests a function actually issues are
returned as an explicit trace, so retry-count properties become statements
about that trace.
-/

namespace DockerProxy

/-! ### String primitives, modelled on the character list -/

/-- Rust `str::split(sep)` with a `char` separator: splits at every occurrence,
keeping empty segments; the empty string yields one empty segment. -/
def splitString (sep : Char) (s : String) : List String :=
  (s.data.splitOn sep).map List.asString

/-- Rust `str::contains(c)` for a `char` needle. -/
def strContains (s : String) (c : Char) : Bool :=
  s.data.contains c

/-- Rust `str::trim`: strip whitespace from both ends. -/
def strTrim (s : String) : String :=
  List.asString (((s.data.dropWhile Char.isWhitespace).reverse.dropWhile
    Char.isWhitespace).reverse)

/-- Rust `str::starts_with(pat)` for a string pattern. -/
def strStartsWith (s pat : String) : Bool :=
  pat.data.isPrefixOf s.data

/-- Rust `str::ends_with(pat)` for a string pattern. -/
def strEndsWith (s pat : String) : Bool :=
  pat.data.isSuffixOf s.data

/-- Drop the first `n` characters (models a byte slice `s[n..]` whose cut point
falls on ASCII text, as in every use in the source). -/
def strDrop (s : String) (n : Nat) : String :=
  List.asString (s.data.drop n)

/-- Drop the last `n` characters (models `s[..len-n]` at an ASCII cut point). -/
def strDropRight (s : String) (n : Nat) : String :=
  List.asString (s.data.take (s.data.length - n))

/-- Whether `pat` occurs as a contiguous run somewhere in `s`. -/
def infixAux (pat : List Char) : List Char → Bool
  | [] => pat.isPrefixOf ([] : List Char)
  | c :: cs => pat.isPrefixOf (c :: cs) || infixAux pat cs

/-- Rust `str::contains(pattern)` for a string pattern: substring test. -/
def containsSubstr (s pat : String) : Bool :=
  infixAux pat.data s.data

/-- Rust `str::splitn(2, sep)`: split only at the first occurrence of `sep`. -/
def splitn2 (sep : Char) (s : String) : List String :=
  match splitString sep s with
  | [] => []
  | [x] => [x]
  | x :: rest => [x, String.intercalate (String.singleton sep) rest]

/-! ### Router — src/router.rs -/

/-- Docker Registry V2 API endpoint types (`enum V2Endpoint`, src/router.rs). -/
inductive V2Endpoint where
  | Manifest (name reference : String)
  | Blob (name digest : String)
  | BlobUploadInit (name : String)
  | BlobUploadComplete (name uuid : String)
  | Unknown
deriving DecidableEq, Repr

/-- The blobs branch of `parse_v2_path` (src/router.rs lines 36-54), reached after
the manifests check has failed.  `parts.getD k ""` models the in-bounds index
`parts[k]` (every use is guarded by the same length check the source makes). -/
def parse_v2_blobs (parts : List String) : V2Endpoint :=
  match parts.findIdx? (fun p => p == "blobs") with
  | some i =>
    if i + 2 < parts.length ∧ parts.getD (i + 1) "" = "uploads" then
      .BlobUploadComplete (String.intercalate "/" (parts.take i)) (parts.getD (i + 2) "")
    else if i + 1 < parts.length ∧ parts.getD (i + 1) "" = "uploads" ∧ i + 2 = parts.length then
      .BlobUploadInit (String.intercalate "/" (parts.take i))
    else if i + 1 < parts.length then
      .Blob (String.intercalate "/" (parts.take i)) (parts.getD (i + 1) "")
    else .Unknown
  | none => .Unknown

/-- `parse_v2_path` on the already-split segment list, mirroring src/router.rs
lines 27-56: first the manifests check (`iter().position`, i.e. first
occurrence), then the blobs checks, else `Unknown`. -/
def parse_v2_parts (parts : List String) : V2Endpoint :=
  match parts.findIdx? (fun p => p == "manifests") with
  | some i =>
    if i + 1 < parts.length then
      .Manifest (String.intercalate "/" (parts.take i)) (parts.getD (i + 1) "")
    else parse_v2_blobs parts
  | none => parse_v2_blobs parts

/-- `pub fn parse_v2_path(rest: &str) -> V2Endpoint` (src/router.rs line 23):
`rest.split('/').collect()` followed by the keyword checks. -/
def parse_v2_path (rest : String) : V2Endpoint :=
  parse_v2_parts (splitString '/' rest)

/-- The `name` field of an endpoint, when it has one (used to state router claims). -/
def nameOfEndpoint : V2Endpoint → Option String
  | .Manifest name _ => some name
  | .Blob name _ => some name
  | .BlobUploadInit name => some name
  | .BlobUploadComplete name _ => some name
  | .Unknown => none

/-- Index of the first segment equal to `manifests` or `blobs` — the split point
that the spec's "classification is positional" invariant designates. -/
def firstKeywordIdx (parts : List String) : Option Nat :=
  parts.findIdx? (fun p => p == "manifests" || p == "blobs")

/-! ### Byte-range engine — src/range.rs -/

/-- Rust `str::parse::<u64>()`: optional leading `+`, then one or more decimal
digits, and the value must fit in a u64; anything else fails. -/
def parse_u64 (s : String) : Option Nat :=
  let cs := match s.data with
    | '+' :: rest => rest
    | cs => cs
  if cs = [] then none
  else if cs.all Char.isDigit then
    let n := cs.foldl (fun acc c => acc * 10 + (c.toNat - 48)) 0
    if n < 2 ^ 64 then some n else none
  else none

/-- `pub fn parse_range_header(range_header: &str, file_size: u64) -> Option<Range<u64>>`
(src/range.rs lines 7-52).  The produced pair is the end-exclusive range
`(start, end)`.  `(end_inclusive + 1) % 2 ^ 64` models the u64 wrap-around of
`end_inclusive + 1` (release-mode semantics). -/
def parse_range_header (range_header : String) (file_size : Nat) : Option (Nat × Nat) :=
  let range_header := strTrim range_header
  if !(strStartsWith range_header "bytes=") then none
  else
    let range_spec := strDrop range_header 6
    let parts := splitString '-' range_spec
    if parts.length ≠ 2 then none
    else
      let p0 := parts.getD 0 ""
      let p1 := parts.getD 1 ""
      if p0.data = [] then
        -- Suffix range: "-500" means the last 500 bytes
        match parse_u64 p1 with
        | some suffix_length =>
          if suffix_length = 0 ∨ file_size ≤ suffix_length then some (0, file_size)
          else some (file_size - suffix_length, file_size)
        | none => none
      else
        match parse_u64 p0 with
        | none => none
        | some start =>
          match (if p1.data = [] then some file_size
                 else (parse_u64 p1).map fun end_inclusive =>
                   min ((end_inclusive + 1) % 2 ^ 64) file_size) with
          | none => none
          | some e =>
            if file_size ≤ start ∨ e ≤ start then none
            else some (start, e)

/-- A character the `http` crate accepts in a `HeaderValue` (`HeaderValue::from_str`):
horizontal tab, or a visible byte that is not DEL. -/
def isValidHeaderValueChar (c : Char) : Bool :=
  c == '\t' || (decide (32 ≤ c.toNat) && decide (c.toNat ≠ 127))

/-- `content_type.parse::<HeaderValue>().is_ok()`: every character is acceptable. -/
def validHeaderValue (s : String) : Bool :=
  s.data.all isValidHeaderValueChar

/-- `pub fn create_range_headers(range, file_size, content_type)`
(src/range.rs lines 55-91).  Headers are listed in insertion order with the
lowercase names `HeaderMap` stores; the status 206 is returned as its numeric
code.  u64 subtraction is modelled by truncated `Nat` subtraction. -/
def create_range_headers (range : Nat × Nat) (file_size : Nat) (content_type : String) :
    Except Unit (Nat × List (String × String)) :=
  if validHeaderValue content_type then
    let content_length := range.2 - range.1
    if validHeaderValue (toString content_length) then
      let content_range :=
        "bytes " ++ toString range.1 ++ "-" ++ toString (range.2 - 1) ++ "/" ++ toString file_size
      if validHeaderValue content_range then
        let headers := [("content-type", content_type),
                        ("content-length", toString content_length),
                        ("content-range", content_range)]
        let headers := if validHeaderValue "bytes" then
            headers ++ [("accept-ranges", "bytes")]
          else headers
        .ok (206, headers)
      else .error ()
    else .error ()
  else .error ()

/-! ### Registry resolution — src/proxy.rs -/

/-- `fn normalize_image_name(&self, name: &str) -> String` (src/proxy.rs lines
352-358): single-segment names get the `library/` prefix. -/
def normalize_image_name (name : String) : String :=
  if strContains name '/' then name else "library/" ++ name

/-- `fn split_registry_and_name(&self, name: &str)` (src/proxy.rs lines 315-326).
`name.find('/')` yielding a position is modelled by the split producing at least
two segments; the slice before the first `/` is the head segment and the slice
after it is the remaining segments rejoined. -/
def split_registry_and_name (registry_url name : String) : String × String :=
  match splitString '/' name with
  | first :: r :: rs =>
    if strContains first '.' || strContains first ':' then
      ("https://" ++ first, String.intercalate "/" (r :: rs))
    else
      (registry_url, normalize_image_name name)
  | _ => (registry_url, normalize_image_name name)

/-- First path segment of a logical name (the claim's "hostname-looking" part). -/
def firstSegment (name : String) : String :=
  (splitString '/' name).headI

/-! ### HTTP model: requests, responses, the network oracle -/

/-- A JSON value, as far as the source inspects one (`serde_json::Value`):
`get` on an object and `as_str` on a string. -/
inductive Json where
  | str (s : String)
  | obj (fields : List (String × Json))
  | null

/-- `Value::get(key).and_then(|v| v.as_str())`: field lookup on an object, then
the string content. -/
def jsonGetStr (j : Json) (key : String) : Option String :=
  match j with
  | .obj fields =>
    match fields.find? (fun p => p.1 == key) with
    | some (_, .str s) => some s
    | _ => none
  | _ => none

/-- An outgoing HTTP request as the source builds one: method, URL, the extra
headers added, and the optional `Authorization: Bearer` credential. -/
structure HttpRequest where
  method : String
  url : String
  headers : List (String × String)
  bearer : Option String
deriving DecidableEq, Repr

/-- An upstream HTTP response: status code, headers (lowercase names, as
`HeaderMap` stores them), what `.json()` would yield, and the body's byte
stream as a list of chunks (what `.bytes_stream()` yields; `.bytes()` is its
concatenation). -/
structure HttpResponse where
  status : Nat
  headers : List (String × String)
  json : Except String Json
  chunks : List (List Nat)

/-- The network oracle: every request either fails at transport level (with a
`reqwest` error message) or produces a response. -/
def World := HttpRequest → Except String HttpResponse

/-- `reqwest::StatusCode::is_success()`: 2xx. -/
def isSuccessStatus (s : Nat) : Bool :=
  decide (200 ≤ s ∧ s < 300)

/-- `HeaderMap::get(name)`: first entry with the (lowercase) name. -/
def headerGet (headers : List (String × String)) (k : String) : Option String :=
  (headers.find? (fun p => p.1 == k)).map (fun p => p.2)

/-- `HashMap::insert`: later inserts overwrite, modelled by appending and letting
`mapGet` take the last matching key. -/
def mapInsert (m : List (String × String)) (k v : String) : List (String × String) :=
  m ++ [(k, v)]

/-- `HashMap::get`. -/
def mapGet (m : List (String × String)) (k : String) : Option String :=
  (m.reverse.find? (fun p => p.1 == k)).map (fun p => p.2)

/-! ### Bearer-auth engine — src/proxy.rs -/

/-- The error taxonomy of the proxy (`enum ProxyError`, src/error.rs, together
with the auth-flow constructors that src/proxy.rs raises). -/
inductive ProxyError where
  | Network (msg : String)
  | ManifestNotFound (status : Nat)
  | BlobNotFound (status : Nat)
  | ResponseReadError (msg : String)
  | BlobUploadNotSupported
  | InvalidRegistryUrl (msg : String)
  | AuthenticationFailed (msg : String)
  | InternalError (msg : String)
  | MissingAuthHeader
  | MissingAuthRealm
  | TokenRequestFailed (status : Nat)
  | TokenParseFailed (msg : String)
  | TokenNotFound
deriving DecidableEq, Repr

/-- `fn parse_www_authenticate(s: &str) -> HashMap<String, String>` (src/proxy.rs
lines 329-350): drop the scheme token, then each comma-separated `key=value`
pair; keys are trimmed and stripped of commas, values trimmed and unquoted. -/
def parse_www_authenticate (s : String) : List (String × String) :=
  match splitn2 ' ' s with
  | [_, params_part] =>
    (splitString ',' params_part).foldl (fun out pair =>
      match splitn2 '=' pair with
      | [k, v0] =>
        let key := strTrim (List.asString ((((strTrim k).data.dropWhile
          (fun c => c == ',')).reverse.dropWhile (fun c => c == ',')).reverse))
        let v1 := strTrim v0
        let v2 :=
          if strStartsWith v1 "\"" && strEndsWith v1 "\"" && decide (2 ≤ v1.data.length) then
            strDropRight (strDrop v1 1) 1
          else v1
        mapInsert out key v2
      | _ => out) []
  | _ => []

/-- The token-endpoint URL built in src/proxy.rs lines 253-261: `realm`, then
`service` and `scope` appended as query parameters, choosing `?` or `&` by
whether a `?` is already present. -/
def buildTokenUrl (params : List (String × String)) (realm : String) : String :=
  let token_url := realm
  let token_url := match mapGet params "service" with
    | some service =>
      token_url ++ (if strContains token_url '?' then "&" else "?") ++ "service=" ++ service
    | none => token_url
  match mapGet params "scope" with
  | some scope =>
      token_url ++ (if strContains token_url '?' then "&" else "?") ++ "scope=" ++ scope
  | none => token_url

/-- The initial request `fetch_with_auth` issues (src/proxy.rs lines 219-237):
the extra headers, plus the static GHCR credential when the URL contains
`ghcr.io` and a token is configured. -/
def initialRequest (ghcr_token method url : String)
    (extra_headers : Option (List (String × String))) : HttpRequest :=
  let has_ghcr_token := containsSubstr url "ghcr.io" && !(ghcr_token == "")
  { method := method, url := url, headers := extra_headers.getD [],
    bearer := if has_ghcr_token then some ghcr_token else none }

/-- The token-endpoint request of the auth flow (src/proxy.rs lines 270-276):
a `GET` of the token URL with no extra headers, carrying the static GHCR
credential when applicable. -/
def tokenRequest (has_token : Bool) (tok token_url : String) : HttpRequest :=
  { method := "GET", url := token_url, headers := [],
    bearer := if has_token then some tok else none }

/-- The retried original request (src/proxy.rs lines 296-303): same method and
URL, the obtained Bearer token, plus the original extra headers. -/
def retryRequest (method url : String) (extra_headers : Option (List (String × String)))
    (token : String) : HttpRequest :=
  { method := method, url := url, headers := extra_headers.getD [], bearer := some token }

/-- Result of `fetch_with_auth` together with the trace of requests issued. -/
structure FetchResult where
  result : Except ProxyError HttpResponse
  trace : List HttpRequest

/-- `async fn fetch_with_auth(&self, method, url, extra_headers)` (src/proxy.rs
lines 213-306): issue the request once; on any status other than 401 return the
response; on 401 parse the `WWW-Authenticate` challenge, request a token from
the realm once, and retry the original request once with that Bearer token.
Every upstream exchange goes through the oracle `w`; the trace records the
requests in the order they are sent. -/
def fetch_with_auth (ghcr_token : String) (w : World) (method url : String)
    (extra_headers : Option (List (String × String))) : FetchResult :=
  let has_ghcr_token := containsSubstr url "ghcr.io" && !(ghcr_token == "")
  let req1 := initialRequest ghcr_token method url extra_headers
  match w req1 with
  | .error e => ⟨.error (.Network e), [req1]⟩
  | .ok resp =>
    if resp.status ≠ 401 then ⟨.ok resp, [req1]⟩
    else
      match headerGet resp.headers "www-authenticate" with
      | none => ⟨.error .MissingAuthHeader, [req1]⟩
      | some www =>
        let params := parse_www_authenticate www
        match mapGet params "realm" with
        | none => ⟨.error .MissingAuthRealm, [req1]⟩
        | some realm =>
          let token_req := tokenRequest has_ghcr_token ghcr_token (buildTokenUrl params realm)
          match w token_req with
          | .error e => ⟨.error (.Network e), [req1, token_req]⟩
          | .ok token_resp =>
            if !(isSuccessStatus token_resp.status) then
              ⟨.error (.TokenRequestFailed token_resp.status), [req1, token_req]⟩
            else
              match token_resp.json with
              | .error e => ⟨.error (.TokenParseFailed e), [req1, token_req]⟩
              | .ok j =>
                match (jsonGetStr j "token").orElse (fun _ => jsonGetStr j "access_token") with
                | none => ⟨.error .TokenNotFound, [req1, token_req]⟩
                | some token =>
                  let req2 := retryRequest method url extra_headers token
                  match w req2 with
                  | .error e => ⟨.error (.Network e), [req1, token_req, req2]⟩
                  | .ok resp2 => ⟨.ok resp2, [req1, token_req, req2]⟩

/-- `pub async fn get_blob(&self, name, digest) -> ProxyResult<Bytes>`
(src/proxy.rs lines 123-148): resolve the registry, fetch with auth, reject
non-2xx with `BlobNotFound`, then await `response.bytes()` — the whole body,
i.e. the concatenation of all stream chunks, materialized before returning.
(The oracle already carries the chunks, so the `ResponseReadError` path of
`bytes()` does not arise in the model.) -/
def get_blob (registry_url ghcr_token : String) (w : World) (name digest : String) :
    Except ProxyError (List Nat) :=
  let p := split_registry_and_name registry_url name
  let url := p.1 ++ "/v2/" ++ p.2 ++ "/blobs/" ++ digest
  match (fetch_with_auth ghcr_token w "GET" url none).result with
  | .error e => .error e
  | .ok resp =>
    if !(isSuccessStatus resp.status) then .error (.BlobNotFound resp.status)
    else .ok resp.chunks.flatten

/-- The spec's contract for `fetchBlob` (spec §4.2), stated for comparison with
`get_blob`: return the live upstream response — status, headers and the
unconsumed chunk stream — without reading the body. -/
def fetchBlob_specContract (registry_url ghcr_token : String) (w : World)
    (name digest : String) : Except ProxyError HttpResponse :=
  let p := split_registry_and_name registry_url name
  let url := p.1 ++ "/v2/" ++ p.2 ++ "/blobs/" ++ digest
  (fetch_with_auth ghcr_token w "GET" url none).result

/-! ### Health check — src/proxy.rs lines 185-205 -/

/-- The single outgoing request of the health check: its URL and its explicit
timeout in seconds. -/
structure HealthRequest where
  url : String
  timeoutSecs : Nat
deriving DecidableEq, Repr

/-- The request `check_registry_health` sends: `GET {origin}/v2/` with a
5-second timeout (`Duration::from_secs(5)`). -/
def healthRequest (registry_url : String) : HealthRequest :=
  { url := registry_url ++ "/v2/", timeoutSecs := 5 }

/-- `pub async fn check_registry_health(&self) -> bool` (src/proxy.rs lines
185-205): healthy iff the response arrives and its status is 2xx or 401; any
transport error (including timeout) is unhealthy. -/
def check_registry_health (registry_url : String)
    (w : HealthRequest → Except String Nat) : Bool :=
  match w (healthRequest registry_url) with
  | .ok status => isSuccessStatus status || status == 401
  | .error _ => false

/-- Decidable equality for `Except`, used to evaluate results on concrete inputs. -/
instance exceptDecEq {e : Type} {a : Type} [DecidableEq e] [DecidableEq a] :
    DecidableEq (Except e a) := fun x y =>
  match x, y with
  | .ok v, .ok w => decidable_of_iff (v = w) (by simp)
  | .error v, .error w => decidable_of_iff (v = w) (by simp)
  | .ok _, .error _ => isFalse (fun hc => Except.noConfusion hc)
  | .error _, .ok _ => isFalse (fun hc => Except.noConfusion hc)

/-- A placeholder request used only as the default of `List.getD` on traces. -/
def dummyRequest : HttpRequest :=
  { method := "", url := "", headers := [], bearer := none }

/-- The error carried by a failed result, if any (lets claims about abstract
response types be evaluated by `decide`). -/
def resultError {e : Type} {a : Type} : Except e a → Option e
  | .error err => some err
  | .ok _ => none

/-- An oracle where every request immediately succeeds with an empty 200. -/
def worldOk200 : World :=
  fun _ => .ok { status := 200, headers := [], json := .error "empty", chunks := [] }

/-- An oracle where every request is answered 401 without a
`WWW-Authenticate` header. -/
def world401NoChallenge : World :=
  fun _ => .ok { status := 401, headers := [], json := .error "no body", chunks := [] }

/-- An oracle where every request succeeds with status 200 and a chunked
binary body. -/
def blobWorld : World :=
  fun _ => .ok
    { status := 200,
      headers := [("content-type", "application/octet-stream"),
        ("docker-content-digest", "sha256:abc")],
      json := .error "not json", chunks := [[1, 2], [3], [4, 5, 6]] }

example : parse_v2_path "library/ubuntu/manifests/latest" = .Manifest "library/ubuntu" "latest" := by decide
example : parse_v2_path "ghcr.io/owner/repo/blobs/sha256:abcd" = .Blob "ghcr.io/owner/repo" "sha256:abcd" := by decide
example : parse_v2_path "library/ubuntu/blobs/uploads" = .BlobUploadInit "library/ubuntu" := by decide
example : parse_v2_path "library/ubuntu/blobs/uploads/550e8400" = .BlobUploadComplete "library/ubuntu" "550e8400" := by decide
example : parse_v2_path "library/ubuntu" = .Unknown := by decide
example : parse_v2_path "" = .Unknown := by decide
example : parse_range_header "bytes=0-1023" 10000 = some (0, 1024) := by decide
example : parse_range_header "bytes=1024-" 10000 = some (1024, 10000) := by decide
example : parse_range_header "bytes=-500" 10000 = some (9500, 10000) := by decide
example : parse_range_header "bytes=0-20000" 10000 = some (0, 10000) := by decide
example : parse_range_header "bytes=10000-" 10000 = none := by decide
example : parse_range_header "bytes=5000-1000" 10000 = none := by decide
example : parse_range_header "bytes=abc-def" 10000 = none := by decide
example : parse_range_header "items=0-10" 10000 = none := by decide
example : parse_range_header "bytes=-5000" 1000 = some (0, 1000) := by decide
example : split_registry_and_name "https://docker.io" "ghcr.io/vansour/docker-proxy" =
    ("https://ghcr.io", "vansour/docker-proxy") := by decide
example : split_registry_and_name "https://docker.io" "ubuntu" =
    ("https://docker.io", "library/ubuntu") := by decide
example : split_registry_and_name "https://docker.io" "vansour/myimage" =
    ("https://docker.io", "vansour/myimage") := by decide
example : parse_www_authenticate
    "Bearer realm=\"https://auth.docker.io/token\",service=\"registry.docker.io\"" =
    [("realm", "https://auth.docker.io/token"), ("service", "registry.docker.io")] := by decide

/-! ### Helper lemmas -/

/-- If no `manifests` segment is followed by a further segment, the manifests
branch of the router is not taken and classification falls through to the blobs
branch. -/
theorem parse_v2_parts_eq_blobs (parts : List String)
    (hm : ∀ k, k < parts.length → parts.getD k "" = "manifests" → k + 1 = parts.length) :
    parse_v2_parts parts = parse_v2_blobs parts := by
  unfold parse_v2_parts
  cases hmfind : parts.findIdx? (fun p => p == "manifests") with
  | none => rfl
  | some i =>
    obtain ⟨hilt, hpi, -⟩ := List.findIdx?_eq_some_iff_getElem.mp hmfind
    simp only [beq_iff_eq] at hpi
    have hlast : i + 1 = parts.length := by
      refine hm i hilt ?_
      simp [List.getD_eq_getElem?_getD, List.getElem?_eq_getElem hilt, hpi]
    simp only []
    rw [if_neg (by omega)]

/-! ### Claims about the router -/

/-- C6: whenever the segment list of the path tail has a first `manifests`
occurrence with at least one segment after it, `parse_v2_path` yields `Manifest`
whose name is all segments before that first `manifests` joined by `/` (any
number of them) and whose reference is the segment immediately after. -/
theorem manifest_split_at_first_manifests (rest : String) (parts : List String) (i : Nat)
    (hsplit : splitString '/' rest = parts)
    (hfind : parts.findIdx? (fun p => p == "manifests") = some i)
    (hlen : i + 1 < parts.length) :
    parse_v2_path rest =
      .Manifest (String.intercalate "/" (parts.take i)) (parts.getD (i + 1) "") := by
  unfold parse_v2_path parse_v2_parts
  rw [hsplit]
  simp only [hfind]
  rw [if_pos hlen]

/-- Witness for C6 at the concrete tail `ghcr.io/vansour/docker-proxy/manifests/v1.0.0`. -/
theorem manifest_split_at_first_manifests_witness :
    parse_v2_path "ghcr.io/vansour/docker-proxy/manifests/v1.0.0" =
      .Manifest "ghcr.io/vansour/docker-proxy" "v1.0.0" :=
  manifest_split_at_first_manifests "ghcr.io/vansour/docker-proxy/manifests/v1.0.0"
    ["ghcr.io", "vansour", "docker-proxy", "manifests", "v1.0.0"] 3
    (by decide) (by decide) (by decide)

/-- C2 counterexample: in `a/blobs/x/manifests/y` both keywords occur, each
followed by a further segment; the first keyword segment is `blobs` at index 1,
so the claim predicts repository name `a`, but the router splits at `manifests`
and produces the name `a/blobs/x`. -/
theorem first_keyword_split_counterexample :
    parse_v2_path "a/blobs/x/manifests/y" = .Manifest "a/blobs/x" "y" ∧
    firstKeywordIdx (splitString '/' "a/blobs/x/manifests/y") = some 1 ∧
    String.intercalate "/" ((splitString '/' "a/blobs/x/manifests/y").take 1) = "a" ∧
    nameOfEndpoint (parse_v2_path "a/blobs/x/manifests/y") ≠ some "a" := by
  decide

/-- C2 (amended): classification splits at the first `manifests` segment that
has a segment after it, even when a `blobs` segment (also followed by a
segment) occurs earlier in the path; everything before that `manifests` is the
repository name. -/
theorem manifests_priority_over_blobs (rest : String) (parts : List String) (i j : Nat)
    (hsplit : splitString '/' rest = parts)
    (hbl : parts.findIdx? (fun p => p == "blobs") = some j)
    (hjlen : j + 1 < parts.length)
    (hji : j < i)
    (hm : parts.findIdx? (fun p => p == "manifests") = some i)
    (hilen : i + 1 < parts.length) :
    parse_v2_path rest =
      .Manifest (String.intercalate "/" (parts.take i)) (parts.getD (i + 1) "") := by
  unfold parse_v2_path parse_v2_parts
  rw [hsplit]
  simp only [hm]
  rw [if_pos hilen]

/-- Witness for the amended C2: in `a/blobs/x/manifests/y` the `blobs` keyword
comes first, yet the router splits at `manifests`. -/
theorem manifests_priority_over_blobs_witness :
    parse_v2_path "a/blobs/x/manifests/y" = .Manifest "a/blobs/x" "y" :=
  manifests_priority_over_blobs "a/blobs/x/manifests/y" ["a", "blobs", "x", "manifests", "y"]
    3 1 (by decide) (by decide) (by decide) (by decide) (by decide) (by decide)

/-- C7: when no `manifests` segment is followed by a further segment and the
first `blobs` segment is immediately followed by `uploads`, the path classifies
as `BlobUploadInit` if `uploads` is the last segment, and as
`BlobUploadComplete` with uploadId the segment two after `blobs` otherwise. -/
theorem blob_upload_classification (rest : String) (parts : List String) (j : Nat)
    (hsplit : splitString '/' rest = parts)
    (hm : ∀ k, k < parts.length → parts.getD k "" = "manifests" → k + 1 = parts.length)
    (hbl : parts.findIdx? (fun p => p == "blobs") = some j)
    (hup : parts.getD (j + 1) "" = "uploads")
    (hlen : j + 1 < parts.length) :
    (j + 2 = parts.length →
      parse_v2_path rest = .BlobUploadInit (String.intercalate "/" (parts.take j))) ∧
    (j + 2 < parts.length →
      parse_v2_path rest =
        .BlobUploadComplete (String.intercalate "/" (parts.take j)) (parts.getD (j + 2) "")) := by
  unfold parse_v2_path
  rw [hsplit, parse_v2_parts_eq_blobs parts hm]
  unfold parse_v2_blobs
  simp only [hbl]
  constructor
  · intro h2
    rw [if_neg (by omega), if_pos ⟨hlen, hup, h2⟩]
  · intro h2
    rw [if_pos ⟨h2, hup⟩]

/-- Witness for C7 at the two concrete tails `library/ubuntu/blobs/uploads` and
`library/ubuntu/blobs/uploads/550e8400`. -/
theorem blob_upload_classification_witness :
    parse_v2_path "library/ubuntu/blobs/uploads" = .BlobUploadInit "library/ubuntu" ∧
    parse_v2_path "library/ubuntu/blobs/uploads/550e8400" =
      .BlobUploadComplete "library/ubuntu" "550e8400" := by
  constructor
  · exact (blob_upload_classification "library/ubuntu/blobs/uploads"
      ["library", "ubuntu", "blobs", "uploads"] 2
      (by decide) (by decide) (by decide) (by decide) (by decide)).1 (by decide)
  · exact (blob_upload_classification "library/ubuntu/blobs/uploads/550e8400"
      ["library", "ubuntu", "blobs", "uploads", "550e8400"] 2
      (by decide) (by decide) (by decide) (by decide) (by decide)).2 (by decide)

/-- C10: for a repository name free of `manifests`/`blobs` segments, the
upload-init path written with its trailing slash, `name/blobs/uploads/`,
classifies as `BlobUploadComplete` with the empty string as uploadId (the
trailing empty segment), while the form without the trailing slash yields
`BlobUploadInit`. -/
theorem upload_init_trailing_slash (name rest1 rest2 : String) (nameParts : List String)
    (hs1 : splitString '/' rest1 = nameParts ++ ["blobs", "uploads", ""])
    (hs2 : splitString '/' rest2 = nameParts ++ ["blobs", "uploads"])
    (hname : String.intercalate "/" nameParts = name)
    (hclean : ∀ seg ∈ nameParts, seg ≠ "manifests" ∧ seg ≠ "blobs") :
    parse_v2_path rest1 = .BlobUploadComplete name "" ∧
    parse_v2_path rest2 = .BlobUploadInit name := by
  have hnm : nameParts.findIdx? (fun p => p == "manifests") = none := by
    rw [List.findIdx?_eq_none_iff]
    intro x hx
    simp [(hclean x hx).1]
  have hnb : nameParts.findIdx? (fun p => p == "blobs") = none := by
    rw [List.findIdx?_eq_none_iff]
    intro x hx
    simp [(hclean x hx).2]
  have hmani : ∀ ys : List String,
      ys.findIdx? (fun p => p == "manifests") = none →
      (nameParts ++ ys).findIdx? (fun p => p == "manifests") = none := by
    intro ys hys
    rw [List.findIdx?_append, hnm, hys]
    rfl
  have hblobs : ∀ ys : List String,
      ys.findIdx? (fun p => p == "blobs") = some 0 →
      (nameParts ++ ys).findIdx? (fun p => p == "blobs") = some nameParts.length := by
    intro ys hys
    rw [List.findIdx?_append, hnb, hys]
    simp
  have hm : ∀ ys : List String,
      ys.findIdx? (fun p => p == "manifests") = none →
      ∀ k, k < (nameParts ++ ys).length → (nameParts ++ ys).getD k "" = "manifests" →
        k + 1 = (nameParts ++ ys).length := by
    intro ys hys k hk hkm
    exfalso
    have hmem : (nameParts ++ ys).getD k "" ∈ nameParts ++ ys := by
      simp only [List.getD_eq_getElem?_getD, List.getElem?_eq_getElem hk, Option.getD_some]
      exact List.getElem_mem hk
    have := List.findIdx?_eq_none_iff.mp (hmani ys hys) _ hmem
    rw [hkm] at this
    simp at this
  constructor
  · unfold parse_v2_path
    rw [hs1, parse_v2_parts_eq_blobs _ (hm _ (by rfl))]
    unfold parse_v2_blobs
    simp only [hblobs ["blobs", "uploads", ""] (by rfl)]
    rw [if_pos]
    · rw [List.take_left, hname]
      congr 1
      simp only [List.getD_eq_getElem?_getD, List.getElem?_append_right (by omega :
        nameParts.length ≤ nameParts.length + 2)]
      simp
    · refine ⟨by simp, ?_⟩
      simp only [List.getD_eq_getElem?_getD, List.getElem?_append_right (by omega :
        nameParts.length ≤ nameParts.length + 1)]
      simp
  · unfold parse_v2_path
    rw [hs2, parse_v2_parts_eq_blobs _ (hm _ (by rfl))]
    unfold parse_v2_blobs
    simp only [hblobs ["blobs", "uploads"] (by rfl)]
    have hup : (nameParts ++ ["blobs", "uploads"]).getD (nameParts.length + 1) "" = "uploads" := by
      simp only [List.getD_eq_getElem?_getD, List.getElem?_append_right (by omega :
        nameParts.length ≤ nameParts.length + 1)]
      simp
    rw [if_neg (by simp [hup]), if_pos ⟨by simp, hup, by simp⟩, List.take_left, hname]

/-- Witness for C10 at the concrete name `library/ubuntu`. -/
theorem upload_init_trailing_slash_witness :
    parse_v2_path "library/ubuntu/blobs/uploads/" = .BlobUploadComplete "library/ubuntu" "" ∧
    parse_v2_path "library/ubuntu/blobs/uploads" = .BlobUploadInit "library/ubuntu" :=
  upload_init_trailing_slash "library/ubuntu" "library/ubuntu/blobs/uploads/"
    "library/ubuntu/blobs/uploads" ["library", "ubuntu"]
    (by decide) (by decide) (by decide) (by decide)

/-! ### Claims about the byte-range engine -/

/-- C3: every range `parse_range_header` produces satisfies
`0 <= start < end <= totalSize`, except that the suffix-normalization cases
yield the full file `[0, totalSize)` (which coincides with the invariant
whenever `totalSize > 0`). -/
theorem parse_range_invariant (h : String) (size s e : Nat)
    (hp : parse_range_header h size = some (s, e)) :
    (s < e ∧ e ≤ size) ∨ (s = 0 ∧ e = size) := by
  simp only [parse_range_header] at hp
  split at hp
  · exact Option.noConfusion hp
  · split at hp
    · exact Option.noConfusion hp
    · split at hp
      · -- suffix branch
        split at hp
        · rename_i suffix_length hpu
          split at hp
          · rw [Option.some.injEq, Prod.mk.injEq] at hp
            obtain ⟨rfl, rfl⟩ := hp
            right
            exact ⟨rfl, rfl⟩
          · rename_i hcond
            rw [Option.some.injEq, Prod.mk.injEq] at hp
            obtain ⟨rfl, rfl⟩ := hp
            push_neg at hcond
            left
            omega
        · exact Option.noConfusion hp
      · -- explicit-start branch
        split at hp
        · exact Option.noConfusion hp
        · rename_i start hpu
          split at hp
          · exact Option.noConfusion hp
          · rename_i e0 hend
            split at hp
            · exact Option.noConfusion hp
            · rename_i hcond
              rw [Option.some.injEq, Prod.mk.injEq] at hp
              obtain ⟨rfl, rfl⟩ := hp
              push_neg at hcond
              left
              refine ⟨hcond.2, ?_⟩
              split at hend
              · rw [Option.some.injEq] at hend
                omega
              · cases hpu1 : parse_u64 ((splitString '-'
                  (strDrop (strTrim h) 6)).getD 1 "") with
                | none =>
                  rw [hpu1] at hend
                  exact Option.noConfusion hend
                | some ei =>
                  rw [hpu1] at hend
                  rw [Option.map_some', Option.some.injEq] at hend
                  rw [← hend]
                  exact min_le_right _ _

/-- Witness for C3 at the concrete header `bytes=0-1023` against size 10000. -/
theorem parse_range_invariant_witness :
    ((0 : Nat) < 1024 ∧ (1024 : Nat) ≤ 10000) ∨ ((0 : Nat) = 0 ∧ (1024 : Nat) = 10000) :=
  parse_range_invariant "bytes=0-1023" 10000 0 1024 (by decide)

/-- Every output character of `Nat.digitChar` is acceptable in a header value. -/
theorem isValidHeaderValueChar_digitChar (n : Nat) :
    isValidHeaderValueChar (Nat.digitChar n) = true := by
  match n with
  | 0 | 1 | 2 | 3 | 4 | 5 | 6 | 7 | 8 | 9 | 10 | 11 | 12 | 13 | 14 | 15 => decide
  | n + 16 =>
    have h : Nat.digitChar (n + 16) = '*' := by
      unfold Nat.digitChar
      repeat rw [if_neg (by omega)]
    rw [h]
    decide

/-- `Nat.toDigitsCore` only ever emits header-acceptable characters. -/
theorem toDigitsCore_all_valid (fuel : Nat) : ∀ (n : Nat) (acc : List Char),
    acc.all isValidHeaderValueChar = true →
    (Nat.toDigitsCore 10 fuel n acc).all isValidHeaderValueChar = true := by
  induction fuel with
  | zero =>
    intro n acc hacc
    simpa [Nat.toDigitsCore] using hacc
  | succ fuel ih =>
    intro n acc hacc
    simp only [Nat.toDigitsCore]
    split
    · simp [isValidHeaderValueChar_digitChar, hacc]
    · exact ih _ _ (by simp [isValidHeaderValueChar_digitChar, hacc])

/-- The decimal rendering of a natural number is a valid header value. -/
theorem validHeaderValue_toString_nat (n : Nat) : validHeaderValue (toString n) = true := by
  show validHeaderValue (Nat.repr n) = true
  unfold validHeaderValue Nat.repr Nat.toDigits
  exact toDigitsCore_all_valid _ _ _ (by rfl)

/-- Header-value validity distributes over string concatenation. -/
theorem validHeaderValue_append (s t : String) :
    validHeaderValue (s ++ t) = (validHeaderValue s && validHeaderValue t) := by
  unfold validHeaderValue
  rw [String.data_append, List.all_append]

/-- C8: for every nonempty range and valid content type, `create_range_headers`
returns status 206 with Content-Type the given type, Content-Length the range
length `end - start`, Content-Range `bytes start-(end-1)/totalSize` (inclusive
end, one less than the exclusive internal end) and Accept-Ranges `bytes`. -/
theorem create_range_headers_spec (rs re fs : Nat) (ct : String)
    (hlt : rs < re) (hct : validHeaderValue ct = true) :
    create_range_headers (rs, re) fs ct =
      .ok (206, [("content-type", ct),
        ("content-length", toString (re - rs)),
        ("content-range",
          "bytes " ++ toString rs ++ "-" ++ toString (re - 1) ++ "/" ++ toString fs),
        ("accept-ranges", "bytes")]) := by
  unfold create_range_headers
  rw [if_pos hct, if_pos (validHeaderValue_toString_nat _), if_pos ?hcr]
  · rfl
  case hcr =>
    simp only [validHeaderValue_append, validHeaderValue_toString_nat, Bool.and_true,
      Bool.true_and]
    decide

/-- Witness for C8 at the spec's concrete example: range `[1024, 2048)` of a
10000-byte file served as `application/octet-stream`. -/
theorem create_range_headers_spec_witness :
    create_range_headers (1024, 2048) 10000 "application/octet-stream" =
      .ok (206, [("content-type", "application/octet-stream"),
        ("content-length", "1024"),
        ("content-range", "bytes 1024-2047/10000"),
        ("accept-ranges", "bytes")]) := by
  have h := create_range_headers_spec 1024 2048 10000 "application/octet-stream"
    (by decide) (by decide)
  rw [h]
  rfl

/-! ### Claims about registry resolution -/

/-- C4 counterexample: for the single-segment name `ghcr.io` the first path
segment contains a `.`, so the claim predicts origin `https://ghcr.io` with an
empty remainder, but the code only treats the first segment as a host when a
`/` is present, and instead resolves to the default registry with the
`library/` shorthand. -/
theorem hostname_shorthand_counterexample :
    strContains (firstSegment "ghcr.io") '.' = true ∧
    split_registry_and_name "https://docker.io" "ghcr.io" =
      ("https://docker.io", "library/ghcr.io") ∧
    split_registry_and_name "https://docker.io" "ghcr.io" ≠
      ("https://" ++ firstSegment "ghcr.io", "") := by
  decide

/-- C4 (amended): when the name contains a `/` and its first segment contains a
`.` or `:`, the origin is `https://` plus that segment and the repository path
is the remainder; otherwise the origin is the configured default registry, and
the repository path is the name, prefixed with `library/` exactly when the name
contains no `/`. -/
theorem registry_resolution (reg name : String) :
    (∀ first r rs, splitString '/' name = first :: r :: rs →
      (strContains first '.' || strContains first ':') = true →
      split_registry_and_name reg name =
        ("https://" ++ first, String.intercalate "/" (r :: rs))) ∧
    (∀ first r rs, splitString '/' name = first :: r :: rs →
      (strContains first '.' || strContains first ':') = false →
      strContains name '/' = true →
      split_registry_and_name reg name = (reg, name)) ∧
    (∀ first, splitString '/' name = [first] →
      strContains name '/' = false →
      split_registry_and_name reg name = (reg, "library/" ++ name)) := by
  refine ⟨?_, ?_, ?_⟩
  · intro first r rs hs hdot
    unfold split_registry_and_name
    rw [hs]
    simp only []
    rw [if_pos hdot]
  · intro first r rs hs hdot hslash
    unfold split_registry_and_name
    rw [hs]
    simp only []
    rw [if_neg (by simp [hdot])]
    unfold normalize_image_name
    rw [if_pos hslash]
  · intro first hs hslash
    unfold split_registry_and_name
    rw [hs]
    simp only []
    unfold normalize_image_name
    rw [if_neg (by simp [hslash])]

/-- Witness for the amended C4 at the spec's three examples: a host-qualified
name, a two-segment name, and an official-image shorthand. -/
theorem registry_resolution_witness :
    split_registry_and_name "https://docker.io" "ghcr.io/owner/repo" =
      ("https://ghcr.io", "owner/repo") ∧
    split_registry_and_name "https://docker.io" "owner/repo" =
      ("https://docker.io", "owner/repo") ∧
    split_registry_and_name "https://docker.io" "ubuntu" =
      ("https://docker.io", "library/ubuntu") := by
  refine ⟨?_, ?_, ?_⟩
  · exact (registry_resolution "https://docker.io" "ghcr.io/owner/repo").1
      "ghcr.io" "owner" ["repo"] (by decide) (by decide)
  · exact (registry_resolution "https://docker.io" "owner/repo").2.1
      "owner" "repo" [] (by decide) (by decide) (by decide)
  · exact (registry_resolution "https://docker.io" "ubuntu").2.2
      "ubuntu" (by decide) (by decide)

/-! ### Claim about the health check -/

/-- C9: the health check issues `GET origin/v2/` with a 5-second timeout, and
returns true exactly when a response arrives whose status is 2xx or 401; any
transport error or timeout yields false (and the function is total — it never
raises). -/
theorem health_check_spec (reg : String) (w : HealthRequest → Except String Nat) :
    healthRequest reg = ⟨reg ++ "/v2/", 5⟩ ∧
    (∀ st, w (healthRequest reg) = .ok st →
      (check_registry_health reg w = true ↔ ((200 ≤ st ∧ st < 300) ∨ st = 401))) ∧
    (∀ err, w (healthRequest reg) = .error err → check_registry_health reg w = false) := by
  refine ⟨rfl, ?_, ?_⟩
  · intro st hst
    unfold check_registry_health
    rw [hst]
    simp [isSuccessStatus]
  · intro err herr
    unfold check_registry_health
    rw [herr]

/-- Witness for C9: an upstream answering 401 is reported healthy. -/
theorem health_check_spec_witness :
    check_registry_health "https://docker.io" (fun _ => .ok 401) = true :=
  ((health_check_spec "https://docker.io" (fun _ => .ok 401)).2.1 401 rfl).mpr (Or.inr rfl)

/-! ### Claim about the blob fetch -/

/-- C1 (code evaluation): on a successful upstream answer whose body arrives in
chunks, `get_blob` of src/proxy.rs returns the chunks flattened into one fully
materialized byte string — `response.bytes()` — and nothing else: the status,
headers and stream of the live response are gone from its return value, while
the spec's `fetchBlob` contract (and the caller in src/api.rs, which relays
`.status()`, `.headers()` and `.bytes_stream()` of the returned value) requires
the live response with its chunk stream unconsumed. -/
theorem get_blob_materializes :
    get_blob "https://docker.io" "" blobWorld "library/ubuntu" "sha256:abc" =
      .ok [1, 2, 3, 4, 5, 6] ∧
    (fetchBlob_specContract "https://docker.io" "" blobWorld "library/ubuntu"
      "sha256:abc").toOption.map HttpResponse.chunks = some [[1, 2], [3], [4, 5, 6]] := by
  exact ⟨by decide, by decide⟩

/-! ### Claims about the auth flow -/

/-- C5 counterexample: on a 401 initial response whose `WWW-Authenticate`
header is missing, the token endpoint is never contacted and the original
request is not retried — exactly one request is issued and the call fails with
`MissingAuthHeader`, refuting "on 401 the token endpoint is requested exactly
once and the original request is retried exactly once". -/
theorem auth_retry_counterexample :
    resultError (fetch_with_auth "" world401NoChallenge "GET"
      "https://registry-1.docker.io/v2/library/ubuntu/manifests/latest" none).result =
      some .MissingAuthHeader ∧
    (fetch_with_auth "" world401NoChallenge "GET"
      "https://registry-1.docker.io/v2/library/ubuntu/manifests/latest" none).trace =
      [initialRequest "" "GET"
        "https://registry-1.docker.io/v2/library/ubuntu/manifests/latest" none] ∧
    (world401NoChallenge (initialRequest "" "GET"
      "https://registry-1.docker.io/v2/library/ubuntu/manifests/latest" none)).toOption.map
      HttpResponse.status = some 401 := by
  refine ⟨by decide, by decide, by decide⟩

/-- C5 (amended): the auth flow is bounded and single-retry.  A non-401 initial
response is returned as-is after exactly one upstream request.  In every case
the trace holds at most three requests, starting with the original one; a
second request, when present, is the token-endpoint `GET` (no extra headers);
a third, when present, is the single retry of the original request — same
method, URL and extra headers, with a Bearer token attached — and whatever
that retry yields (response, or transport error wrapped as `Network`) is the
call's result, with no further attempt. -/
theorem fetch_with_auth_bounded (tok : String) (w : World) (m u : String)
    (hs : Option (List (String × String))) :
    (∀ resp, w (initialRequest tok m u hs) = .ok resp → resp.status ≠ 401 →
      (fetch_with_auth tok w m u hs).result = .ok resp ∧
      (fetch_with_auth tok w m u hs).trace = [initialRequest tok m u hs]) ∧
    (fetch_with_auth tok w m u hs).trace.length ≤ 3 ∧
    (fetch_with_auth tok w m u hs).trace.head? = some (initialRequest tok m u hs) ∧
    (2 ≤ (fetch_with_auth tok w m u hs).trace.length →
      ((fetch_with_auth tok w m u hs).trace.getD 1 dummyRequest).method = "GET" ∧
      ((fetch_with_auth tok w m u hs).trace.getD 1 dummyRequest).headers = []) ∧
    ((fetch_with_auth tok w m u hs).trace.length = 3 →
      ((fetch_with_auth tok w m u hs).trace.getD 2 dummyRequest).method = m ∧
      ((fetch_with_auth tok w m u hs).trace.getD 2 dummyRequest).url = u ∧
      ((fetch_with_auth tok w m u hs).trace.getD 2 dummyRequest).headers = hs.getD [] ∧
      ((fetch_with_auth tok w m u hs).trace.getD 2 dummyRequest).bearer.isSome = true ∧
      (∀ resp2, w ((fetch_with_auth tok w m u hs).trace.getD 2 dummyRequest) = .ok resp2 →
        (fetch_with_auth tok w m u hs).result = .ok resp2) ∧
      (∀ er, w ((fetch_with_auth tok w m u hs).trace.getD 2 dummyRequest) = .error er →
        (fetch_with_auth tok w m u hs).result = .error (.Network er))) := by
  unfold fetch_with_auth
  simp only []
  cases hw1 : w (initialRequest tok m u hs) with
  | error e =>
    refine ⟨?_, Nat.le_of_sub_eq_zero rfl, rfl, ?_, ?_⟩
    · intro resp' h1 h2
      exact Except.noConfusion h1
    · intro h2
      exact absurd h2 (Nat.not_succ_le_self 1)
    · intro h3
      simp at h3
  | ok resp =>
    simp only []
    by_cases h401 : resp.status = 401
    · rw [if_neg (by omega)]
      cases hga : headerGet resp.headers "www-authenticate" with
      | none =>
        refine ⟨?_, Nat.le_of_sub_eq_zero rfl, rfl, ?_, ?_⟩
        · intro resp' h1 h2
          obtain rfl := Except.ok.inj h1
          exact absurd h401 h2
        · intro h2
          exact absurd h2 (Nat.not_succ_le_self 1)
        · intro h3
          simp at h3
      | some www =>
        simp only []
        cases hrealm : mapGet (parse_www_authenticate www) "realm" with
        | none =>
          refine ⟨?_, Nat.le_of_sub_eq_zero rfl, rfl, ?_, ?_⟩
          · intro resp' h1 h2
            obtain rfl := Except.ok.inj h1
            exact absurd h401 h2
          · intro h2
            exact absurd h2 (Nat.not_succ_le_self 1)
          · intro h3
            simp at h3
        | some realm =>
          simp only []
          cases hw2 : w (tokenRequest (containsSubstr u "ghcr.io" && !(tok == "")) tok
              (buildTokenUrl (parse_www_authenticate www) realm)) with
          | error e2 =>
            refine ⟨?_, Nat.le_of_sub_eq_zero rfl, rfl, ?_, ?_⟩
            · intro resp' h1 h2
              obtain rfl := Except.ok.inj h1
              exact absurd h401 h2
            · intro h2
              exact ⟨rfl, rfl⟩
            · intro h3
              simp at h3
          | ok token_resp =>
            simp only []
            by_cases hsucc : (!(isSuccessStatus token_resp.status)) = true
            · rw [if_pos hsucc]
              refine ⟨?_, Nat.le_of_sub_eq_zero rfl, rfl, ?_, ?_⟩
              · intro resp' h1 h2
                obtain rfl := Except.ok.inj h1
                exact absurd h401 h2
              · intro h2
                exact ⟨rfl, rfl⟩
              · intro h3
                simp at h3
            · rw [if_neg hsucc]
              cases hjson : token_resp.json with
              | error e3 =>
                refine ⟨?_, Nat.le_of_sub_eq_zero rfl, rfl, ?_, ?_⟩
                · intro resp' h1 h2
                  obtain rfl := Except.ok.inj h1
                  exact absurd h401 h2
                · intro h2
                  exact ⟨rfl, rfl⟩
                · intro h3
                  simp at h3
              | ok j =>
                simp only []
                cases htok : (jsonGetStr j "token").orElse
                    (fun _ => jsonGetStr j "access_token") with
                | none =>
                  refine ⟨?_, Nat.le_of_sub_eq_zero rfl, rfl, ?_, ?_⟩
                  · intro resp' h1 h2
                    obtain rfl := Except.ok.inj h1
                    exact absurd h401 h2
                  · intro h2
                    exact ⟨rfl, rfl⟩
                  · intro h3
                    simp at h3
                | some token =>
                  simp only []
                  cases hw3 : w (retryRequest m u hs token) with
                  | error e4 =>
                    refine ⟨?_, Nat.le_of_sub_eq_zero rfl, rfl, ?_, ?_⟩
                    · intro resp' h1 h2
                      obtain rfl := Except.ok.inj h1
                      exact absurd h401 h2
                    · intro h2
                      exact ⟨rfl, rfl⟩
                    · intro h3
                      refine ⟨rfl, rfl, rfl, rfl, ?_, ?_⟩
                      · intro resp2' h1'
                        have h1x : w (retryRequest m u hs token) = .ok resp2' := h1'
                        rw [hw3] at h1x
                        exact Except.noConfusion h1x
                      · intro er h1'
                        have h1x : w (retryRequest m u hs token) = .error er := h1'
                        rw [hw3] at h1x
                        obtain rfl := Except.error.inj h1x
                        rfl
                  | ok resp2 =>
                    refine ⟨?_, Nat.le_of_sub_eq_zero rfl, rfl, ?_, ?_⟩
                    · intro resp' h1 h2
                      obtain rfl := Except.ok.inj h1
                      exact absurd h401 h2
                    · intro h2
                      exact ⟨rfl, rfl⟩
                    · intro h3
                      refine ⟨rfl, rfl, rfl, rfl, ?_, ?_⟩
                      · intro resp2' h1'
                        have h1x : w (retryRequest m u hs token) = .ok resp2' := h1'
                        rw [hw3] at h1x
                        obtain rfl := Except.ok.inj h1x
                        rfl
                      · intro er h1'
                        have h1x : w (retryRequest m u hs token) = .error er := h1'
                        rw [hw3] at h1x
                        exact Except.noConfusion h1x
    · rw [if_pos h401]
      refine ⟨?_, Nat.le_of_sub_eq_zero rfl, rfl, ?_, ?_⟩
      · intro resp' h1 h2
        obtain rfl := Except.ok.inj h1
        exact ⟨rfl, rfl⟩
      · intro h2
        exact absurd h2 (Nat.not_succ_le_self 1)
      · intro h3
        simp at h3

/-- Witness for the amended C5: an upstream that answers 200 immediately is
passed through after a single request. -/
theorem fetch_with_auth_bounded_witness :
    (fetch_with_auth "" worldOk200 "GET" "https://registry-1.docker.io/v2/" none).result =
      .ok { status := 200, headers := [], json := .error "empty", chunks := [] } ∧
    (fetch_with_auth "" worldOk200 "GET" "https://registry-1.docker.io/v2/" none).trace =
      [initialRequest "" "GET" "https://registry-1.docker.io/v2/" none] :=
  (fetch_with_auth_bounded "" worldOk200 "GET" "https://registry-1.docker.io/v2/" none).1
    { status := 200, headers := [], json := .error "empty", chunks := [] }
    rfl (by decide)

end DockerProxy
